import Mathlib

/-!
Verification of the inventory HTTP service (`main.js`).

The service keeps an in-memory mapping `inventoryDB` from string ids to item
records and a cache directory of photo blob files.  We embed this state as
`ServerState`: the mapping becomes an association list (JavaScript objects
preserve insertion order) and the set of blob files on disk becomes a list of
path strings.  Each route handler becomes a pure function from the state and
the request data to a `HandlerOut` (new state, HTTP status, response body and
the ordered list of filesystem effects it performed).  JavaScript truthiness
tests on optional strings (`if (name)`, `if (item.photoPath)`) are embedded by
`optTruthy`, which is false exactly on `none` (null/undefined) and the empty
string.  `fs.unlink` with its `.catch` handler is embedded as `List.erase`
(removing the file when present, doing nothing when the unlink fails because
the file is absent); a failing `fs.writeFile` is modelled by the `writeOk`
flag of the photo-replace request.
-/

/-- An internal item record: `inventoryDB[id]` in `main.js`.  `photoPath` is
the server-local blob path; `none` stands for JavaScript `null`. -/
structure Item where
  id : String
  name : String
  description : String
  photoPath : Option String
  deriving Repr, DecidableEq

/-- The client-facing view produced by `itemToClient`: the `photoPath` field
is structurally absent, only the derived `photoUrl` may appear. -/
structure ClientItem where
  id : String
  name : String
  description : String
  photoUrl : Option String
  deriving Repr, DecidableEq

/-- JavaScript truthiness of an optional string: `null`/`undefined` and the
empty string are falsy, every other string is truthy. -/
def optTruthy : Option String → Bool
  | none => false
  | some s => s != ""

/-- The photo URL derived for an item: `/inventory/${id}/photo`. -/
def photoUrlOf (id : String) : String :=
  "/inventory/" ++ id ++ "/photo"

/-- `itemToClient` from `main.js`: shallow copy, set `photoUrl` when
`photoPath` is truthy, delete the `photoPath` field. -/
def itemToClient (item : Item) : ClientItem :=
  { id := item.id
    name := item.name
    description := item.description
    photoUrl := if optTruthy item.photoPath then some (photoUrlOf item.id) else none }

/-- The in-memory database: an association list from id to record, in
insertion order (JavaScript object key order). -/
abbrev DB := List (String × Item)

/-- `inventoryDB[id]` — lookup by key. -/
def dbGet (db : DB) (id : String) : Option Item :=
  match db with
  | [] => none
  | kv :: rest => if kv.1 = id then some kv.2 else dbGet rest id

/-- `inventoryDB[id] = item` — replace the value at an existing key in place,
or append a new key at the end. -/
def dbSet (db : DB) (id : String) (item : Item) : DB :=
  match db with
  | [] => [(id, item)]
  | kv :: rest => if kv.1 = id then (id, item) :: rest else kv :: dbSet rest id item

/-- `delete inventoryDB[id]` — remove the key. -/
def dbDelete (db : DB) (id : String) : DB :=
  match db with
  | [] => []
  | kv :: rest => if kv.1 = id then dbDelete rest id else kv :: dbDelete rest id

/-- The whole mutable state of the service: the record map and the set of
blob files currently existing in the cache directory. -/
structure ServerState where
  inventoryDB : DB
  blobFiles : List String
  deriving Repr, DecidableEq

/-- The state right after startup: empty map, empty cache directory. -/
def initState : ServerState :=
  { inventoryDB := [], blobFiles := [] }

/-- Filesystem / record effects a handler performs, in program order. -/
inductive FsEvent where
  | unlink (p : String)
  | write (p : String)
  | setRef (id : String) (p : String)
  | removeRecord (id : String)
  deriving Repr, DecidableEq

/-- Response bodies the handlers serialize. -/
inductive RespBody where
  | item (v : ClientItem)
  | items (vs : List ClientItem)
  | msg (s : String)
  | err (s : String)
  deriving Repr, DecidableEq

/-- Result of running one handler: the post-state, the HTTP status, the JSON
body, and the ordered filesystem effects. -/
structure HandlerOut where
  state : ServerState
  status : Nat
  body : RespBody
  events : List FsEvent
  deriving Repr, DecidableEq

/-- `fs.unlink(p).catch(...)`: the file is removed when present; when absent
the unlink fails and the error is swallowed, leaving the files unchanged. -/
def unlinkFile (files : List String) (p : String) : List String :=
  files.erase p

/-- `POST /register`.  Formidable has already streamed the uploaded photo (if
any) to `tempFile` inside the cache directory before the parse callback runs,
so the step first adds that file to the store; `parseErr` tells whether
`form.parse` reported an error.  The callback then mirrors `main.js`: on a
parse error respond 500 (no cleanup); on a falsy `inventory_name` unlink the
uploaded file if there is one and respond 400; otherwise build the record
with `description || ''` and the photo path and insert it under the fresh
`newId`. -/
def registerHandler (st : ServerState) (parseErr : Bool)
    (inventory_name descr tempFile : Option String) (newId : String) : HandlerOut :=
  let files0 := match tempFile with
    | some f => f :: st.blobFiles
    | none => st.blobFiles
  let upEvents : List FsEvent := match tempFile with
    | some f => [FsEvent.write f]
    | none => []
  let st0 : ServerState := { st with blobFiles := files0 }
  if parseErr then
    { state := st0, status := 500, body := RespBody.err "Error parsing form data"
      events := upEvents }
  else if !optTruthy inventory_name then
    match tempFile with
    | some f =>
        { state := { st0 with blobFiles := unlinkFile st0.blobFiles f }
          status := 400, body := RespBody.err "inventory_name is required"
          events := upEvents ++ [FsEvent.unlink f] }
    | none =>
        { state := st0, status := 400, body := RespBody.err "inventory_name is required"
          events := upEvents }
  else
    let newItem : Item :=
      { id := newId
        name := inventory_name.getD ""
        description := descr.getD ""
        photoPath := tempFile }
    { state := { st0 with inventoryDB := dbSet st0.inventoryDB newId newItem }
      status := 201, body := RespBody.item (itemToClient newItem)
      events := upEvents }

/-- `GET /inventory`: map every stored record through `itemToClient`. -/
def listHandler (st : ServerState) : HandlerOut :=
  { state := st, status := 200
    body := RespBody.items (st.inventoryDB.map (fun kv => itemToClient kv.2))
    events := [] }

/-- `PUT /inventory/:id`: truthy `name`/`description` fields overwrite the
stored values, falsy ones are ignored; the record is written back in place. -/
def updateHandler (st : ServerState) (id : String) (name descr : Option String) : HandlerOut :=
  match dbGet st.inventoryDB id with
  | none => { state := st, status := 404, body := RespBody.err "Not Found", events := [] }
  | some item =>
      let item1 := if optTruthy name then { item with name := name.getD "" } else item
      let item2 := if optTruthy descr then { item1 with description := descr.getD "" } else item1
      { state := { st with inventoryDB := dbSet st.inventoryDB id item2 }
        status := 200, body := RespBody.item (itemToClient item2), events := [] }

/-- `DELETE /inventory/:id`: 404 when absent; otherwise unlink the photo file
when the record has a truthy `photoPath` (failure swallowed), then remove the
record and respond with the deletion message. -/
def deleteHandler (st : ServerState) (id : String) : HandlerOut :=
  match dbGet st.inventoryDB id with
  | none => { state := st, status := 404, body := RespBody.err "Not Found", events := [] }
  | some item =>
      let files1 := if optTruthy item.photoPath
        then unlinkFile st.blobFiles (item.photoPath.getD "") else st.blobFiles
      let evs := (if optTruthy item.photoPath
        then [FsEvent.unlink (item.photoPath.getD "")] else []) ++ [FsEvent.removeRecord id]
      { state := { inventoryDB := dbDelete st.inventoryDB id, blobFiles := files1 }
        status := 200, body := RespBody.msg ("Item " ++ id ++ " deleted")
        events := evs }

/-- `PUT /inventory/:id/photo`: 404 when the record is absent; 400 on an
empty request body; otherwise unlink the previous photo file when the record
has one (failure swallowed), then attempt to write the new blob at the fresh
`newPath` (`photo_${id}_${Date.now()}.jpg` in the cache directory).  When the
write succeeds the record's `photoPath` is updated and 200 returned; when it
fails (`writeOk = false`) the handler responds 500 leaving `photoPath` as it
was. -/
def putPhotoHandler (st : ServerState) (id : String) (bodyLen : Nat)
    (newPath : String) (writeOk : Bool) : HandlerOut :=
  match dbGet st.inventoryDB id with
  | none => { state := st, status := 404, body := RespBody.err "Not Found", events := [] }
  | some item =>
      if bodyLen = 0 then
        { state := st, status := 400, body := RespBody.err "Empty photo data", events := [] }
      else
        let files1 := if optTruthy item.photoPath
          then unlinkFile st.blobFiles (item.photoPath.getD "") else st.blobFiles
        let evs1 : List FsEvent := if optTruthy item.photoPath
          then [FsEvent.unlink (item.photoPath.getD "")] else []
        if writeOk then
          let item2 := { item with photoPath := some newPath }
          { state := { inventoryDB := dbSet st.inventoryDB id item2
                       blobFiles := newPath :: files1 }
            status := 200, body := RespBody.msg "Photo updated"
            events := evs1 ++ [FsEvent.write newPath, FsEvent.setRef id newPath] }
        else
          { state := { st with blobFiles := files1 }
            status := 500, body := RespBody.err "Failed to save photo"
            events := evs1 }

/-- Append the bracketed photo link to a client view's description, exactly
as `GET /search` and `POST /search` do. -/
def appendPhotoLink (ci : ClientItem) : ClientItem :=
  { ci with description := ci.description ++ " [Photo Link: " ++ ci.photoUrl.getD "" ++ "]" }

/-- `GET /search?id=&includePhoto=`: look the item up, map it to the client
view, and when the flag is exactly `"on"` and the view has a truthy
`photoUrl`, append the photo link to the description of the copy. -/
def searchGetHandler (st : ServerState) (id : String) (includePhoto : Option String) : HandlerOut :=
  match dbGet st.inventoryDB id with
  | none => { state := st, status := 404, body := RespBody.err "Not Found", events := [] }
  | some item =>
      let ci := itemToClient item
      let ci2 := if includePhoto == some "on" && optTruthy ci.photoUrl
        then appendPhotoLink ci else ci
      { state := st, status := 200, body := RespBody.item ci2, events := [] }

/-- `POST /search` with form fields `id` and `has_photo`: same logic as the
GET variant with `has_photo` as the flag. -/
def searchPostHandler (st : ServerState) (id : String) (has_photo : Option String) : HandlerOut :=
  match dbGet st.inventoryDB id with
  | none => { state := st, status := 404, body := RespBody.err "Not Found", events := [] }
  | some item =>
      let ci := itemToClient item
      let ci2 := if has_photo == some "on" && optTruthy ci.photoUrl
        then appendPhotoLink ci else ci
      { state := st, status := 200, body := RespBody.item ci2, events := [] }

/-- One state-changing request, with the environment data it depends on
(parse outcome, uploaded temp file, generated id, write success). -/
inductive Op where
  | register (parseErr : Bool) (name descr tempFile : Option String) (newId : String)
  | update (id : String) (name descr : Option String)
  | deleteOp (id : String)
  | putPhoto (id : String) (bodyLen : Nat) (newPath : String) (writeOk : Bool)
  | searchGet (id : String) (includePhoto : Option String)
  | searchPost (id : String) (has_photo : Option String)
  deriving Repr, DecidableEq

/-- Dispatch one operation to its handler. -/
def step (st : ServerState) (op : Op) : HandlerOut :=
  match op with
  | Op.register pe n d t nid => registerHandler st pe n d t nid
  | Op.update id n d => updateHandler st id n d
  | Op.deleteOp id => deleteHandler st id
  | Op.putPhoto id len p w => putPhotoHandler st id len p w
  | Op.searchGet id f => searchGetHandler st id f
  | Op.searchPost id f => searchPostHandler st id f

/-- Run a sequence of operations, threading the state. -/
def runOps (st : ServerState) (ops : List Op) : ServerState :=
  match ops with
  | [] => st
  | op :: rest => runOps (step st op).state rest

/-- The ids `GET /inventory` exposes: the keys of the map, in order. -/
def listIds (st : ServerState) : List String :=
  st.inventoryDB.map Prod.fst

/-- The blob reference a record actually holds: its `photoPath` when truthy. -/
def refOf (item : Item) : Option String :=
  if optTruthy item.photoPath then item.photoPath else none

/-- A record's photo reference, when present, names an existing blob file. -/
def itemRefOk (blobs : List String) (item : Item) : Bool :=
  match refOf item with
  | some p => decide (p ∈ blobs)
  | none => true

/-- No live record holds a dangling blob reference. -/
def danglingFree (st : ServerState) : Bool :=
  st.inventoryDB.all (fun kv => itemRefOk st.blobFiles kv.2)

/-- No two entries of the map hold the same blob reference. -/
def refsDisjoint : DB → Bool
  | [] => true
  | kv :: rest =>
      (rest.all (fun kv2 =>
        match refOf kv.2, refOf kv2.2 with
        | some p, some q => p != q
        | _, _ => true)) && refsDisjoint rest

/-- Well-formedness of a service state: ids are unique, no dangling photo
references, and no two records share a blob file. -/
def goodState (st : ServerState) : Prop :=
  (st.inventoryDB.map Prod.fst).Nodup ∧ danglingFree st = true ∧ refsDisjoint st.inventoryDB = true

/-- Whether the blob write of a photo-replace operation succeeds (vacuously
true for every other operation). -/
def opWriteSucceeds : Op → Prop
  | Op.putPhoto _ _ _ writeOk => writeOk = true
  | _ => True

/-- Whether an operation is a registration generating the given id. -/
def opCreatesId (op : Op) (id : String) : Bool :=
  match op with
  | Op.register _ _ _ _ nid => nid == id
  | _ => false

/-! ### Basic lemmas about the association-list operations -/

theorem optTruthy_some_iff {s : String} : optTruthy (some s) = true ↔ s ≠ "" := by
  simp [optTruthy]

theorem optTruthy_none : optTruthy none = false := rfl

theorem dbGet_mem {db : DB} {id : String} {v : Item} (h : dbGet db id = some v) :
    (id, v) ∈ db := by
  induction db with
  | nil => simp [dbGet] at h
  | cons kv rest ih =>
      by_cases hk : kv.1 = id
      · rw [dbGet, if_pos hk] at h
        injection h with h2
        subst h2
        subst hk
        simp
      · simp [dbGet, hk] at h
        exact List.mem_cons_of_mem _ (ih h)

theorem dbGet_dbSet_self (db : DB) (id : String) (w : Item) :
    dbGet (dbSet db id w) id = some w := by
  induction db with
  | nil => simp [dbSet, dbGet]
  | cons kv rest ih =>
      by_cases hk : kv.1 = id
      · simp [dbSet, hk, dbGet]
      · simp [dbSet, hk, dbGet, ih]

theorem dbGet_dbDelete_self (db : DB) (id : String) :
    dbGet (dbDelete db id) id = none := by
  induction db with
  | nil => simp [dbDelete, dbGet]
  | cons kv rest ih =>
      by_cases hk : kv.1 = id
      · simp [dbDelete, hk, ih]
      · simp [dbDelete, hk, dbGet, ih]

theorem mem_dbSet {db : DB} {k : String} {v : Item} {kv : String × Item}
    (h : kv ∈ dbSet db k v) : kv = (k, v) ∨ kv ∈ db := by
  induction db with
  | nil => simp [dbSet] at h; simp [h]
  | cons kv0 rest ih =>
      by_cases hk : kv0.1 = k
      · simp [dbSet, hk] at h
        rcases h with h | h
        · left; simp [h]
        · right; exact List.mem_cons_of_mem _ h
      · simp [dbSet, hk] at h
        rcases h with h | h
        · right; simp [h]
        · rcases ih h with h1 | h1
          · left; exact h1
          · right; exact List.mem_cons_of_mem _ h1

theorem mem_dbSet_of_nodup {db : DB} {k : String} {v : Item} {kv : String × Item}
    (hnd : (db.map Prod.fst).Nodup) (h : kv ∈ dbSet db k v) :
    kv = (k, v) ∨ (kv ∈ db ∧ kv.1 ≠ k) := by
  induction db with
  | nil => simp [dbSet] at h; simp [h]
  | cons kv0 rest ih =>
      simp only [List.map_cons, List.nodup_cons] at hnd
      by_cases hk : kv0.1 = k
      · simp [dbSet, hk] at h
        rcases h with h | h
        · left; simp [h]
        · right
          refine ⟨List.mem_cons_of_mem _ h, ?_⟩
          intro hkv
          apply hnd.1
          rw [hk, ← hkv]
          exact List.mem_map_of_mem Prod.fst h
      · simp [dbSet, hk] at h
        rcases h with h | h
        · right
          exact ⟨by simp [h], by simp [h, hk]⟩
        · rcases ih hnd.2 h with h1 | h1
          · left; exact h1
          · right; exact ⟨List.mem_cons_of_mem _ h1.1, h1.2⟩

theorem mem_dbDelete {db : DB} {k : String} {kv : String × Item}
    (h : kv ∈ dbDelete db k) : kv ∈ db ∧ kv.1 ≠ k := by
  induction db with
  | nil => simp [dbDelete] at h
  | cons kv0 rest ih =>
      by_cases hk : kv0.1 = k
      · simp [dbDelete, hk] at h
        rcases ih h with ⟨h1, h2⟩
        exact ⟨List.mem_cons_of_mem _ h1, h2⟩
      · simp [dbDelete, hk] at h
        rcases h with h | h
        · exact ⟨by simp [h], by simp [h, hk]⟩
        · rcases ih h with ⟨h1, h2⟩
          exact ⟨List.mem_cons_of_mem _ h1, h2⟩

theorem keys_dbSet {db : DB} {k : String} {v : Item} {a : String}
    (h : a ∈ (dbSet db k v).map Prod.fst) : a ∈ db.map Prod.fst ∨ a = k := by
  rcases List.mem_map.1 h with ⟨kv, hkv, hfst⟩
  rcases mem_dbSet hkv with h1 | h1
  · right; rw [← hfst, h1]
  · left; exact hfst ▸ List.mem_map_of_mem Prod.fst h1

theorem dbGet_some_of_key_mem {db : DB} {id : String}
    (h : id ∈ db.map Prod.fst) : ∃ v, dbGet db id = some v := by
  induction db with
  | nil => simp at h
  | cons kv rest ih =>
      by_cases hk : kv.1 = id
      · exact ⟨kv.2, by simp [dbGet, hk]⟩
      · simp only [List.map_cons, List.mem_cons] at h
        rcases h with h | h
        · exact absurd h.symm hk
        · rcases ih h with ⟨v, hv⟩
          exact ⟨v, by simp [dbGet, hk, hv]⟩

/-! ### Lemmas about references and blob-file membership -/

theorem itemRefOk_congr {blobs : List String} {it1 it2 : Item}
    (h : refOf it1 = refOf it2) : itemRefOk blobs it1 = itemRefOk blobs it2 := by
  unfold itemRefOk
  rw [h]

theorem itemRefOk_of_mem {blobs : List String} {item : Item}
    (h : ∀ p, refOf item = some p → p ∈ blobs) : itemRefOk blobs item = true := by
  unfold itemRefOk
  cases href : refOf item with
  | none => rfl
  | some p => simpa using h p href

theorem mem_of_itemRefOk {blobs : List String} {item : Item} {p : String}
    (h : itemRefOk blobs item = true) (href : refOf item = some p) : p ∈ blobs := by
  unfold itemRefOk at h
  rw [href] at h
  simpa using h

theorem itemRefOk_cons {blobs : List String} {item : Item} (x : String)
    (h : itemRefOk blobs item = true) : itemRefOk (x :: blobs) item = true := by
  refine itemRefOk_of_mem (fun p hp => ?_)
  exact List.mem_cons_of_mem _ (mem_of_itemRefOk h hp)

theorem itemRefOk_erase {blobs : List String} {item : Item} {q : String}
    (h : itemRefOk blobs item = true)
    (hne : ∀ p, refOf item = some p → p ≠ q) :
    itemRefOk (blobs.erase q) item = true := by
  refine itemRefOk_of_mem (fun p hp => ?_)
  exact (List.mem_erase_of_ne (hne p hp)).2 (mem_of_itemRefOk h hp)

theorem refOf_some {item : Item} {p : String} (h : refOf item = some p) :
    item.photoPath = some p ∧ p ≠ "" := by
  unfold refOf at h
  split at h
  · next ht =>
      rw [h] at ht
      exact ⟨h, optTruthy_some_iff.1 ht⟩
  · simp at h

theorem refOf_of_truthy {item : Item} {p : String}
    (hp : item.photoPath = some p) (hne : p ≠ "") : refOf item = some p := by
  unfold refOf
  rw [hp, if_pos (optTruthy_some_iff.2 hne)]

theorem refsDisjoint_spec {db : DB} (h : refsDisjoint db = true) :
    ∀ kv1 ∈ db, ∀ kv2 ∈ db, kv1.1 ≠ kv2.1 →
      ∀ p q, refOf kv1.2 = some p → refOf kv2.2 = some q → p ≠ q := by
  induction db with
  | nil => intro kv1 h1; simp at h1
  | cons kv0 rest ih =>
      unfold refsDisjoint at h
      rw [Bool.and_eq_true, List.all_eq_true] at h
      obtain ⟨hall, hrest⟩ := h
      have head_case : ∀ kv2 ∈ rest, ∀ p q,
          refOf kv0.2 = some p → refOf kv2.2 = some q → p ≠ q := by
        intro kv2 h2 p q hp hq
        have := hall kv2 h2
        rw [hp, hq] at this
        simpa using this
      intro kv1 h1 kv2 h2 hkey p q hp hq
      rcases List.mem_cons.1 h1 with he1 | hm1
      · rcases List.mem_cons.1 h2 with he2 | hm2
        · rw [he1, he2] at hkey
          exact absurd rfl hkey
        · rw [he1] at hp
          exact head_case kv2 hm2 p q hp hq
      · rcases List.mem_cons.1 h2 with he2 | hm2
        · rw [he2] at hq
          exact (head_case kv1 hm1 q p hq hp).symm
        · exact ih hrest kv1 hm1 kv2 hm2 hkey p q hp hq

/-! ### The derived photo URL is never the empty string -/

theorem photoUrlOf_ne_empty (i : String) : photoUrlOf i ≠ "" := by
  intro h
  have hlen : (photoUrlOf i).length = 0 := by rw [h]; rfl
  have h11 : ("/inventory/" : String).length = 11 := rfl
  have h6 : ("/photo" : String).length = 6 := rfl
  rw [photoUrlOf, String.length_append, String.length_append, h11, h6] at hlen
  omega

theorem optTruthy_photoUrl (i : String) : optTruthy (some (photoUrlOf i)) = true :=
  optTruthy_some_iff.2 (photoUrlOf_ne_empty i)

/-! ### Concrete sample states used by the witnesses -/

/-- A sample record owning the blob `old.jpg`. -/
def sampleItem : Item :=
  { id := "a", name := "Widget", description := "d", photoPath := some "old.jpg" }

/-- A sample record without a photo. -/
def sampleItemNoPhoto : Item :=
  { id := "b", name := "Gadget", description := "e", photoPath := none }

/-- A sample state: one record with a photo, its blob on disk. -/
def sampleState : ServerState :=
  { inventoryDB := [("a", sampleItem)], blobFiles := ["old.jpg"] }

/-! ### Claim theorems -/

/-- C8: `itemToClient` copies `id`, `name` and `description` verbatim; the
view carries a `photoUrl` exactly when the record's photo reference is
present (truthy), in which case it is the derived URL `/inventory/{id}/photo`;
and the view is independent of the stored path, so the internal path never
reaches a response (the `ClientItem` type has no path field at all). -/
theorem itemToClient_spec (item : Item) :
    (itemToClient item).id = item.id
    ∧ (itemToClient item).name = item.name
    ∧ (itemToClient item).description = item.description
    ∧ (itemToClient item).photoUrl.isSome = optTruthy item.photoPath
    ∧ (∀ u, (itemToClient item).photoUrl = some u → u = photoUrlOf item.id)
    ∧ (∀ p1 p2, p1 ≠ "" → p2 ≠ "" →
        itemToClient { item with photoPath := some p1 }
          = itemToClient { item with photoPath := some p2 }) := by
  refine ⟨rfl, rfl, rfl, ?_, ?_, ?_⟩
  · by_cases ht : optTruthy item.photoPath = true <;> simp [itemToClient, ht]
  · intro u hu
    by_cases ht : optTruthy item.photoPath = true <;> simp [itemToClient, ht] at hu
    exact hu.symm
  · intro p1 p2 h1 h2
    simp [itemToClient, optTruthy_some_iff.2 h1, optTruthy_some_iff.2 h2]

/-- C8 witness: on the sample record the view exposes the derived URL and is
the same whether the stored path is `x.jpg` or `y.jpg`. -/
theorem itemToClient_spec_witness :
    ((itemToClient sampleItem).photoUrl.isSome = optTruthy sampleItem.photoPath)
    ∧ itemToClient { sampleItem with photoPath := some "x.jpg" }
        = itemToClient { sampleItem with photoPath := some "y.jpg" } :=
  ⟨(itemToClient_spec sampleItem).2.2.2.1,
   (itemToClient_spec sampleItem).2.2.2.2.2 "x.jpg" "y.jpg" (by decide) (by decide)⟩

/-- C10: neither search handler modifies the stored state: the photo-link
append happens on the copy produced by `itemToClient`, so the post-state of
both `GET /search` and `POST /search` equals the pre-state exactly. -/
theorem search_preserves_state (st : ServerState) (id : String) (flag : Option String) :
    (searchGetHandler st id flag).state = st ∧ (searchPostHandler st id flag).state = st := by
  cases hd : dbGet st.inventoryDB id <;>
    simp [searchGetHandler, searchPostHandler, hd]

/-- C9: a photo replace whose request body is empty fails with 400 and leaves
everything untouched: the returned `HandlerOut` carries the unchanged state,
performs no filesystem events, and reports the validation error. -/
theorem putPhoto_empty_body_unchanged (st : ServerState) (id newPath : String)
    (writeOk : Bool) (item : Item) (h : dbGet st.inventoryDB id = some item) :
    putPhotoHandler st id 0 newPath writeOk =
      { state := st, status := 400, body := RespBody.err "Empty photo data", events := [] } := by
  simp [putPhotoHandler, h]

/-- C9 witness: empty body on the sample state with a live record. -/
theorem putPhoto_empty_body_unchanged_witness :
    putPhotoHandler sampleState "a" 0 "new.jpg" true =
      { state := sampleState, status := 400, body := RespBody.err "Empty photo data",
        events := [] } :=
  putPhoto_empty_body_unchanged sampleState "a" "new.jpg" true sampleItem rfl

/-- C4: updating a live record overwrites exactly the fields that are
provided and truthy (non-empty); absent or empty fields keep the stored
value, and `id` and `photoPath` are always unchanged; the blob store is not
touched.  A description-only update leaves the name unchanged and vice
versa, as the two `if`s are independent. -/
theorem update_partial_semantics (st : ServerState) (id : String)
    (name descr : Option String) (item : Item)
    (h : dbGet st.inventoryDB id = some item) :
    (updateHandler st id name descr).status = 200
    ∧ dbGet (updateHandler st id name descr).state.inventoryDB id = some
        { id := item.id
          name := if optTruthy name then name.getD "" else item.name
          description := if optTruthy descr then descr.getD "" else item.description
          photoPath := item.photoPath }
    ∧ (updateHandler st id name descr).state.blobFiles = st.blobFiles := by
  by_cases hn : optTruthy name = true <;> by_cases hd : optTruthy descr = true <;>
    simp [updateHandler, h, hn, hd, dbGet_dbSet_self]

/-- C4 witness: a description-only update of the sample record keeps the
name `Widget` and the photo path, and stores the new description. -/
theorem update_partial_semantics_witness :
    dbGet (updateHandler sampleState "a" none (some "nd")).state.inventoryDB "a" =
      some { id := "a", name := "Widget", description := "nd", photoPath := some "old.jpg" } :=
  (update_partial_semantics sampleState "a" none (some "nd") sampleItem rfl).2.1

/-- C5: deleting a live record responds 200 with the deletion message, the
record is gone afterwards, the owned blob (when the reference is truthy) is
unlinked — and that unlink precedes the record removal in the event order;
the unlink is best-effort (`List.erase` does nothing when the file is already
absent) and the outcome does not depend on it; an id with no live record
yields 404 and no change at all. -/
theorem delete_release_then_remove (st : ServerState) (id idMissing : String) (item : Item)
    (h : dbGet st.inventoryDB id = some item)
    (hm : dbGet st.inventoryDB idMissing = none) :
    (deleteHandler st id).status = 200
    ∧ (deleteHandler st id).body = RespBody.msg ("Item " ++ id ++ " deleted")
    ∧ dbGet (deleteHandler st id).state.inventoryDB id = none
    ∧ (deleteHandler st id).state.blobFiles =
        (if optTruthy item.photoPath then unlinkFile st.blobFiles (item.photoPath.getD "")
         else st.blobFiles)
    ∧ (deleteHandler st id).events =
        (if optTruthy item.photoPath then [FsEvent.unlink (item.photoPath.getD "")] else [])
          ++ [FsEvent.removeRecord id]
    ∧ deleteHandler st idMissing =
        { state := st, status := 404, body := RespBody.err "Not Found", events := [] } := by
  refine ⟨?_, ?_, ?_, ?_, ?_, ?_⟩ <;>
    simp [deleteHandler, h, hm, dbGet_dbDelete_self]

/-- C5 witness: deleting the sample record succeeds, removes it, erases its
blob, and the missing id `b` yields 404. -/
theorem delete_release_then_remove_witness :
    (deleteHandler sampleState "a").status = 200
    ∧ dbGet (deleteHandler sampleState "a").state.inventoryDB "a" = none
    ∧ deleteHandler sampleState "b" =
        { state := sampleState, status := 404, body := RespBody.err "Not Found", events := [] } :=
  ⟨(delete_release_then_remove sampleState "a" "b" sampleItem rfl rfl).1,
   (delete_release_then_remove sampleState "a" "b" sampleItem rfl rfl).2.2.1,
   (delete_release_then_remove sampleState "a" "b" sampleItem rfl rfl).2.2.2.2.2⟩

/-- C6: both search handlers return the client view of the found item with
the description augmented by exactly the substring
` [Photo Link: /inventory/{id}/photo]` when the flag is literally `"on"` and
the item has a (truthy) photo reference; in every other case — flag absent,
flag with any other value, or no photo — the description is returned
unchanged. -/
theorem search_photo_link_append (st : ServerState) (id : String) (flag : Option String)
    (item : Item) (h : dbGet st.inventoryDB id = some item) :
    (searchGetHandler st id flag).body = RespBody.item
      { id := item.id
        name := item.name
        description := if flag == some "on" && optTruthy item.photoPath
          then item.description ++ " [Photo Link: " ++ photoUrlOf item.id ++ "]"
          else item.description
        photoUrl := if optTruthy item.photoPath then some (photoUrlOf item.id) else none }
    ∧ (searchPostHandler st id flag).body = RespBody.item
      { id := item.id
        name := item.name
        description := if flag == some "on" && optTruthy item.photoPath
          then item.description ++ " [Photo Link: " ++ photoUrlOf item.id ++ "]"
          else item.description
        photoUrl := if optTruthy item.photoPath then some (photoUrlOf item.id) else none } := by
  constructor <;>
    · by_cases ht : optTruthy item.photoPath = true <;>
        by_cases hf : flag == some "on" <;>
          simp [searchGetHandler, searchPostHandler, h, itemToClient, appendPhotoLink,
            ht, hf, optTruthy_photoUrl, optTruthy_none]

/-- C6 witness: searching the sample item with the flag on appends the link,
and with the flag off returns the stored description. -/
theorem search_photo_link_append_witness :
    (searchGetHandler sampleState "a" (some "on")).body = RespBody.item
      { id := "a", name := "Widget",
        description := "d" ++ " [Photo Link: " ++ photoUrlOf "a" ++ "]"
        photoUrl := some (photoUrlOf "a") }
    ∧ (searchPostHandler sampleState "a" (some "off")).body = RespBody.item
      { id := "a", name := "Widget", description := "d", photoUrl := some (photoUrlOf "a") } := by
  constructor
  · have h1 := (search_photo_link_append sampleState "a" (some "on") sampleItem rfl).1
    simpa [sampleItem] using h1
  · have h2 := (search_photo_link_append sampleState "a" (some "off") sampleItem rfl).2
    simpa [sampleItem] using h2

/-- C1 counterexample: on a state whose record `a` owns the blob `old.jpg`,
a successful photo replace performs `unlink old.jpg` as its FIRST event —
the new blob is not written first, refuting the claimed write-before-release
ordering; the actual order is release, then write, then reference update. -/
theorem putPhoto_releases_before_write_cex :
    (putPhotoHandler sampleState "a" 3 "new.jpg" true).events.head?
        ≠ some (FsEvent.write "new.jpg")
    ∧ (putPhotoHandler sampleState "a" 3 "new.jpg" true).events =
        [FsEvent.unlink "old.jpg", FsEvent.write "new.jpg", FsEvent.setRef "a" "new.jpg"] := by
  constructor <;> decide

/-- C1 (amended): for every live record that already has a (truthy) photo
reference, a photo replace with a non-empty body and a successful disk write
performs, in this order: unlink of the previous blob, write of the new blob,
then the update of the record's reference. -/
theorem putPhoto_event_order (st : ServerState) (id newPath : String) (bodyLen : Nat)
    (item : Item) (p : String)
    (h : dbGet st.inventoryDB id = some item)
    (hp : item.photoPath = some p) (hp0 : p ≠ "")
    (hb : bodyLen ≠ 0) :
    (putPhotoHandler st id bodyLen newPath true).events =
      [FsEvent.unlink p, FsEvent.write newPath, FsEvent.setRef id newPath] := by
  have ht : optTruthy item.photoPath = true := by
    rw [hp]; exact optTruthy_some_iff.2 hp0
  simp [putPhotoHandler, h, hb, ht, hp, optTruthy_some_iff.2 hp0]

/-- C1 witness: the amended ordering on the sample state. -/
theorem putPhoto_event_order_witness :
    (putPhotoHandler sampleState "a" 3 "new.jpg" true).events =
      [FsEvent.unlink "old.jpg", FsEvent.write "new.jpg", FsEvent.setRef "a" "new.jpg"] :=
  putPhoto_event_order sampleState "a" "new.jpg" 3 sampleItem "old.jpg" rfl rfl
    (by decide) (by decide)

/-- C3 counterexample: when form parsing fails while a photo was uploaded,
the registration is rejected (500) but the uploaded temporary file stays on
disk — the handler's parse-error branch performs no cleanup, refuting the
claim for the parse-failure case. -/
theorem register_parse_error_keeps_temp_cex :
    (registerHandler initState true none none (some "t.jpg") "a").status = 500
    ∧ "t.jpg" ∈ (registerHandler initState true none none (some "t.jpg") "a").state.blobFiles := by
  constructor <;> decide

/-- C3 (amended): the uploaded temporary file is removed only in the
missing-name rejection: if parsing succeeded, the name is falsy and a photo
was uploaded, the handler responds 400 and the temp file is gone (given the
generated temp name is fresh); but when form parsing fails the handler
responds 500 and the uploaded temp file remains on disk. -/
theorem register_temp_cleanup (st : ServerState) (descr name : Option String)
    (f newId : String)
    (hn : optTruthy name = false)
    (hf : f ∉ st.blobFiles) :
    (registerHandler st false name descr (some f) newId).status = 400
    ∧ f ∉ (registerHandler st false name descr (some f) newId).state.blobFiles
    ∧ (registerHandler st true name descr (some f) newId).status = 500
    ∧ f ∈ (registerHandler st true name descr (some f) newId).state.blobFiles := by
  refine ⟨?_, ?_, ?_, ?_⟩ <;>
    simp [registerHandler, hn, hf, unlinkFile]

/-- C3 witness: the amended behaviour at a concrete rejected registration. -/
theorem register_temp_cleanup_witness :
    (registerHandler initState false none none (some "t.jpg") "a").status = 400
    ∧ "t.jpg" ∉ (registerHandler initState false none none (some "t.jpg") "a").state.blobFiles :=
  ⟨(register_temp_cleanup initState none none "t.jpg" "a" rfl (by decide)).1,
   (register_temp_cleanup initState none none "t.jpg" "a" rfl (by decide)).2.1⟩

/-! ### Supporting lemmas for the dangling-reference analysis -/

theorem danglingFree_of_forall {st : ServerState}
    (h : ∀ kv ∈ st.inventoryDB, itemRefOk st.blobFiles kv.2 = true) :
    danglingFree st = true := by
  rw [danglingFree, List.all_eq_true]
  exact h

theorem forall_of_danglingFree {st : ServerState} (h : danglingFree st = true) :
    ∀ kv ∈ st.inventoryDB, itemRefOk st.blobFiles kv.2 = true := by
  rw [danglingFree, List.all_eq_true] at h
  exact h

theorem refOf_congr {it1 it2 : Item} (h : it1.photoPath = it2.photoPath) :
    refOf it1 = refOf it2 := by
  unfold refOf
  rw [h]

theorem itemRefOk_of_photoPath_eq {blobs : List String} {it1 it2 : Item}
    (h : it1.photoPath = it2.photoPath) (hok : itemRefOk blobs it2 = true) :
    itemRefOk blobs it1 = true := by
  rw [itemRefOk_congr (refOf_congr h)]
  exact hok

theorem truthy_photoPath {item : Item} (ht : optTruthy item.photoPath = true) :
    ∃ p, item.photoPath = some p ∧ p ≠ "" := by
  cases hpp : item.photoPath with
  | none => rw [hpp] at ht; simp [optTruthy] at ht
  | some q =>
      rw [hpp] at ht
      exact ⟨q, rfl, optTruthy_some_iff.1 ht⟩

/-- C2 counterexample: a reachable state with a dangling reference.  Register
an item with a photo, then replace the photo with a failing disk write: the
handler has already unlinked the old blob before attempting the write, so the
record still references `t.jpg` while the blob store is empty. -/
theorem dangling_ref_after_failed_write_cex :
    danglingFree (runOps initState
      [Op.register false (some "x") none (some "t.jpg") "a",
       Op.putPhoto "a" 1 "n.jpg" false]) = false
    ∧ (runOps initState
      [Op.register false (some "x") none (some "t.jpg") "a",
       Op.putPhoto "a" 1 "n.jpg" false]).blobFiles = [] := by
  constructor <;> decide

/-- C2 (amended): on a well-formed state (unique ids, no dangling and no
shared references) every operation whose blob write succeeds leaves the state
free of dangling references — the one violation the code allows is the photo
replace whose `fs.writeFile` fails, which keeps the old reference after having
unlinked the old blob. -/
theorem step_preserves_danglingFree (st : ServerState) (op : Op)
    (hg : goodState st) (hw : opWriteSucceeds op) :
    danglingFree (step st op).state = true := by
  obtain ⟨hnd, hdf, hrd⟩ := hg
  have hAll := forall_of_danglingFree hdf
  cases op with
  | register pe n d t nid =>
      cases pe with
      | true =>
          cases t with
          | none => simpa [step, registerHandler] using hdf
          | some f =>
              simp only [step, registerHandler, if_true]
              refine danglingFree_of_forall ?_
              intro kv hkv
              simp only at hkv ⊢
              exact itemRefOk_cons f (hAll kv hkv)
      | false =>
          by_cases hn : optTruthy n = true
          · cases t with
            | none =>
                simp only [step, registerHandler, hn, Bool.not_true, Bool.false_eq_true,
                  if_false]
                refine danglingFree_of_forall ?_
                intro kv hkv
                simp only at hkv ⊢
                rcases mem_dbSet hkv with hkv1 | hkv1
                · subst hkv1
                  simp [itemRefOk, refOf, optTruthy_none]
                · exact hAll kv hkv1
            | some f =>
                simp only [step, registerHandler, hn, Bool.not_true, Bool.false_eq_true,
                  if_false]
                refine danglingFree_of_forall ?_
                intro kv hkv
                simp only at hkv ⊢
                rcases mem_dbSet hkv with hkv1 | hkv1
                · subst hkv1
                  refine itemRefOk_of_mem (fun p hp => ?_)
                  rcases refOf_some hp with ⟨hpp, -⟩
                  have hfp : f = p := by simpa using hpp
                  subst hfp
                  exact List.mem_cons_self _ _
                · exact itemRefOk_cons f (hAll kv hkv1)
          · cases t with
            | none => simpa [step, registerHandler, hn] using hdf
            | some f =>
                simp only [step, registerHandler, hn]
                simpa [unlinkFile] using hdf
  | update id n d =>
      cases hitem : dbGet st.inventoryDB id with
      | none => simpa [step, updateHandler, hitem] using hdf
      | some item =>
          simp only [step, updateHandler, hitem]
          refine danglingFree_of_forall ?_
          intro kv hkv
          simp only at hkv ⊢
          rcases mem_dbSet hkv with hkv1 | hkv1
          · subst hkv1
            refine itemRefOk_of_photoPath_eq ?_ (hAll (id, item) (dbGet_mem hitem))
            by_cases h1 : optTruthy n = true <;> by_cases h2 : optTruthy d = true <;>
              simp [h1, h2]
          · exact hAll kv hkv1
  | deleteOp id =>
      cases hitem : dbGet st.inventoryDB id with
      | none => simpa [step, deleteHandler, hitem] using hdf
      | some item =>
          by_cases ht : optTruthy item.photoPath = true
          · obtain ⟨p, hpp, hp0⟩ := truthy_photoPath ht
            simp only [step, deleteHandler, hitem, ht, if_true]
            refine danglingFree_of_forall ?_
            intro kv hkv
            simp only at hkv ⊢
            obtain ⟨hkv1, hkey⟩ := mem_dbDelete hkv
            refine itemRefOk_of_mem (fun q hq => ?_)
            have hqmem : q ∈ st.blobFiles := mem_of_itemRefOk (hAll kv hkv1) hq
            have hrefitem : refOf item = some p := refOf_of_truthy hpp hp0
            have hqp : q ≠ p :=
              refsDisjoint_spec hrd kv hkv1 (id, item) (dbGet_mem hitem) hkey q p hq hrefitem
            have hgd : item.photoPath.getD "" = p := by rw [hpp]; rfl
            rw [unlinkFile, hgd]
            exact (List.mem_erase_of_ne hqp).2 hqmem
          · simp only [step, deleteHandler, hitem, ht, if_false]
            refine danglingFree_of_forall ?_
            intro kv hkv
            simp only at hkv ⊢
            exact hAll kv (mem_dbDelete hkv).1
  | putPhoto id len newPath w =>
      have hwt : w = true := hw
      subst hwt
      cases hitem : dbGet st.inventoryDB id with
      | none => simpa [step, putPhotoHandler, hitem] using hdf
      | some item =>
          by_cases hlen : len = 0
          · simpa [step, putPhotoHandler, hitem, hlen] using hdf
          · by_cases ht : optTruthy item.photoPath = true
            · obtain ⟨p, hpp, hp0⟩ := truthy_photoPath ht
              simp only [step, putPhotoHandler, hitem, hlen, ht, if_true, if_false,
                ite_false, ite_true]
              refine danglingFree_of_forall ?_
              intro kv hkv
              simp only at hkv ⊢
              rcases mem_dbSet_of_nodup hnd hkv with hkv1 | ⟨hkv1, hkey⟩
              · subst hkv1
                refine itemRefOk_of_mem (fun q hq => ?_)
                rcases refOf_some hq with ⟨hq1, -⟩
                have hnq : newPath = q := by simpa using hq1
                subst hnq
                exact List.mem_cons_self _ _
              · refine itemRefOk_of_mem (fun q hq => ?_)
                have hqmem : q ∈ st.blobFiles := mem_of_itemRefOk (hAll kv hkv1) hq
                have hrefitem : refOf item = some p := refOf_of_truthy hpp hp0
                have hqp : q ≠ p :=
                  refsDisjoint_spec hrd kv hkv1 (id, item) (dbGet_mem hitem) hkey q p hq hrefitem
                have hgd : item.photoPath.getD "" = p := by rw [hpp]; rfl
                rw [unlinkFile, hgd]
                exact List.mem_cons_of_mem _ ((List.mem_erase_of_ne hqp).2 hqmem)
            · simp only [step, putPhotoHandler, hitem, hlen, ht, if_true, if_false,
                ite_false, ite_true]
              refine danglingFree_of_forall ?_
              intro kv hkv
              simp only at hkv ⊢
              rcases mem_dbSet hkv with hkv1 | hkv1
              · subst hkv1
                refine itemRefOk_of_mem (fun q hq => ?_)
                rcases refOf_some hq with ⟨hq1, -⟩
                have hnq : newPath = q := by simpa using hq1
                subst hnq
                exact List.mem_cons_self _ _
              · exact itemRefOk_cons newPath (hAll kv hkv1)
  | searchGet id f =>
      cases hitem : dbGet st.inventoryDB id <;>
        simpa [step, searchGetHandler, hitem] using hdf
  | searchPost id f =>
      cases hitem : dbGet st.inventoryDB id <;>
        simpa [step, searchPostHandler, hitem] using hdf

/-- C2 witness: a successful photo replace on the well-formed sample state
leaves it free of dangling references. -/
theorem step_preserves_danglingFree_witness :
    danglingFree (step sampleState (Op.putPhoto "a" 3 "new.jpg" true)).state = true :=
  step_preserves_danglingFree sampleState (Op.putPhoto "a" 3 "new.jpg" true)
    ⟨by decide, by decide, by decide⟩ rfl

/-! ### Which operations can introduce an id into the map -/

theorem stepKeys (st : ServerState) (op : Op) (a : String)
    (h : a ∈ listIds (step st op).state) :
    a ∈ listIds st ∨ opCreatesId op a = true := by
  cases op with
  | register pe n d t nid =>
      cases pe with
      | true =>
          left
          cases t <;> simpa [step, registerHandler, listIds] using h
      | false =>
          by_cases hn : optTruthy n = true
          · have hdb : (step st (Op.register false n d t nid)).state.inventoryDB
                = dbSet st.inventoryDB nid
                    { id := nid, name := n.getD "", description := d.getD ""
                      photoPath := t } := by
              cases t <;> simp [step, registerHandler, hn]
            rw [listIds, hdb] at h
            rcases keys_dbSet h with h1 | h1
            · left; exact h1
            · right; simp [opCreatesId, h1]
          · left
            cases t <;> simpa [step, registerHandler, hn, listIds, unlinkFile] using h
  | update id n d =>
      left
      cases hitem : dbGet st.inventoryDB id with
      | none => simpa [step, updateHandler, hitem, listIds] using h
      | some item =>
          simp only [step, updateHandler, hitem, listIds] at h ⊢
          rcases keys_dbSet h with h1 | h1
          · exact h1
          · subst h1
            exact List.mem_map_of_mem Prod.fst (dbGet_mem hitem)
  | deleteOp id =>
      left
      cases hitem : dbGet st.inventoryDB id with
      | none => simpa [step, deleteHandler, hitem, listIds] using h
      | some item =>
          simp only [step, deleteHandler, hitem, listIds] at h ⊢
          rcases List.mem_map.1 h with ⟨kv, hkv, hfst⟩
          rw [← hfst]
          exact List.mem_map_of_mem Prod.fst (mem_dbDelete hkv).1
  | putPhoto id len newPath w =>
      left
      cases hitem : dbGet st.inventoryDB id with
      | none => simpa [step, putPhotoHandler, hitem, listIds] using h
      | some item =>
          by_cases hlen : len = 0
          · simpa [step, putPhotoHandler, hitem, hlen, listIds] using h
          · cases w with
            | false =>
                simpa [step, putPhotoHandler, hitem, hlen, listIds] using h
            | true =>
                simp only [step, putPhotoHandler, hitem, listIds] at h ⊢
                rw [if_neg hlen] at h
                simp only [if_true] at h
                rcases keys_dbSet h with h1 | h1
                · exact h1
                · subst h1
                  exact List.mem_map_of_mem Prod.fst (dbGet_mem hitem)
  | searchGet id f =>
      left
      cases hitem : dbGet st.inventoryDB id <;>
        simpa [step, searchGetHandler, hitem, listIds] using h
  | searchPost id f =>
      left
      cases hitem : dbGet st.inventoryDB id <;>
        simpa [step, searchPostHandler, hitem, listIds] using h

theorem runOps_created (ops : List Op) : ∀ (st : ServerState) (a : String),
    a ∈ listIds (runOps st ops) →
    a ∈ listIds st ∨ ops.any (fun op => opCreatesId op a) = true := by
  induction ops with
  | nil =>
      intro st a h
      left
      simpa [runOps] using h
  | cons op rest ih =>
      intro st a h
      rw [runOps] at h
      rcases ih _ a h with h1 | h1
      · rcases stepKeys st op a h1 with h2 | h2
        · left; exact h2
        · right; simp [List.any_cons, h2]
      · right; simp [List.any_cons, h1]

theorem runOps_not_created (ops : List Op) : ∀ (st : ServerState) (a : String),
    a ∉ listIds st → ops.all (fun op => !opCreatesId op a) = true →
    a ∉ listIds (runOps st ops) := by
  induction ops with
  | nil =>
      intro st a h _
      simpa [runOps] using h
  | cons op rest ih =>
      intro st a h hall
      rw [List.all_cons, Bool.and_eq_true] at hall
      rw [runOps]
      refine ih _ a ?_ hall.2
      intro hmem
      rcases stepKeys st op a hmem with h1 | h1
      · exact h h1
      · have h2 := hall.1
        rw [h1] at h2
        simp at h2

theorem runOps_append (st : ServerState) (l1 l2 : List Op) :
    runOps st (l1 ++ l2) = runOps (runOps st l1) l2 := by
  induction l1 generalizing st with
  | nil => simp [runOps]
  | cons op rest ih => rw [List.cons_append, runOps, runOps, ih]

theorem key_not_mem_after_delete (st : ServerState) (id : String) :
    id ∉ listIds (step st (Op.deleteOp id)).state := by
  cases hitem : dbGet st.inventoryDB id with
  | none =>
      simp only [step, deleteHandler, hitem, listIds]
      intro hmem
      rcases dbGet_some_of_key_mem hmem with ⟨v, hv⟩
      rw [hitem] at hv
      simp at hv
  | some item =>
      simp only [step, deleteHandler, hitem, listIds]
      intro hmem
      rcases List.mem_map.1 hmem with ⟨kv, hkv, hfst⟩
      exact (mem_dbDelete hkv).2 hfst

/-- C7: over every finite operation sequence from the empty initial state,
the listing endpoint is sound: an id it shows was generated by some prior
registration, and after a delete of an id that is never re-generated by a
later registration the id never appears again.  (Generated ids are
`crypto.randomUUID()` values, so in the real system an id is never generated
twice; the second conjunct's side condition expresses exactly that.) -/
theorem list_ids_sound (ops : List Op) (a : String) :
    (a ∈ listIds (runOps initState ops) →
      ops.any (fun op => opCreatesId op a) = true)
    ∧ (∀ l1 l2, ops = l1 ++ Op.deleteOp a :: l2 →
        l2.all (fun op => !opCreatesId op a) = true →
        a ∉ listIds (runOps initState ops)) := by
  constructor
  · intro h
    rcases runOps_created ops initState a h with h1 | h1
    · simp [initState, listIds] at h1
    · exact h1
  · intro l1 l2 hsplit hall
    rw [hsplit, runOps_append, runOps]
    exact runOps_not_created l2 _ a (key_not_mem_after_delete _ a) hall

/-- C7 witness: the id `a` shown after a registration was created by it, and
after registering then deleting `a` the listing no longer contains it. -/
theorem list_ids_sound_witness :
    ([Op.register false (some "x") none none "a"].any
        (fun op => opCreatesId op "a") = true)
    ∧ "a" ∉ listIds (runOps initState
        [Op.register false (some "x") none none "a", Op.deleteOp "a"]) :=
  ⟨(list_ids_sound [Op.register false (some "x") none none "a"] "a").1 (by decide),
   (list_ids_sound [Op.register false (some "x") none none "a", Op.deleteOp "a"] "a").2
     [Op.register false (some "x") none none "a"] [] rfl (by decide)⟩
